import Mathlib

/-!
Verification of the ClearLine pipeline core: the hash-chain integrity
engine (`hash_chain.py`), the transient-vs-sustained alert classifier
(`transient_filter.py`) and the threshold rule evaluator
(`demo_logic.py`), shallowly embedded in Lean.

Machine words are modelled as `Nat` reduced modulo `2^32` where the
SHA-256 algorithm requires it; Python numeric values are modelled as `ℚ`;
fallible Python code (raising exceptions) is modelled with `Except`.
-/

set_option maxRecDepth 100000

namespace ClearLine

/-! SHA-256, as computed by Python's `hashlib.sha256(...).hexdigest()`.
This is a direct executable implementation of FIPS 180-4 over `Nat`
with explicit reduction modulo `2^32`. -/

def mask32 (n : Nat) : Nat := n % 4294967296

def add32 (a b : Nat) : Nat := (a + b) % 4294967296

def rotr32 (x n : Nat) : Nat := mask32 ((x >>> n) ||| (x <<< (32 - n)))

def not32 (x : Nat) : Nat := 4294967295 ^^^ x

def bsig0 (x : Nat) : Nat := (rotr32 x 2) ^^^ (rotr32 x 13) ^^^ (rotr32 x 22)

def bsig1 (x : Nat) : Nat := (rotr32 x 6) ^^^ (rotr32 x 11) ^^^ (rotr32 x 25)

def ssig0 (x : Nat) : Nat := (rotr32 x 7) ^^^ (rotr32 x 18) ^^^ (x >>> 3)

def ssig1 (x : Nat) : Nat := (rotr32 x 17) ^^^ (rotr32 x 19) ^^^ (x >>> 10)

def chf (x y z : Nat) : Nat := (x &&& y) ^^^ ((not32 x) &&& z)

def majf (x y z : Nat) : Nat := (x &&& y) ^^^ (x &&& z) ^^^ (y &&& z)

/-- The 64 SHA-256 round constants of FIPS 180-4, in decimal. -/
def sha256K : List Nat :=
  [1116352408, 1899447441, 3049323471, 3921009573, 961987163,
   1508970993, 2453635748, 2870763221, 3624381080, 310598401,
   607225278, 1426881987, 1925078388, 2162078206, 2614888103,
   3248222580, 3835390401, 4022224774, 264347078, 604807628,
   770255983, 1249150122, 1555081692, 1996064986, 2554220882,
   2821834349, 2952996808, 3210313671, 3336571891, 3584528711,
   113926993, 338241895, 666307205, 773529912, 1294757372,
   1396182291, 1695183700, 1986661051, 2177026350, 2456956037,
   2730485921, 2820302411, 3259730800, 3345764771, 3516065817,
   3600352804, 4094571909, 275423344, 430227734, 506948616,
   659060556, 883997877, 958139571, 1322822218, 1537002063,
   1747873779, 1955562222, 2024104815, 2227730452, 2361852424,
   2428436474, 2756734187, 3204031479, 3329325298]

structure Hash8 where
  a : Nat
  b : Nat
  c : Nat
  d : Nat
  e : Nat
  f : Nat
  g : Nat
  hh : Nat
deriving DecidableEq

/-- The initial SHA-256 hash state of FIPS 180-4, in decimal. -/
def initH : Hash8 :=
  ⟨1779033703, 3144134277, 1013904242, 2773480762,
   1359893119, 2600822924, 528734635, 1541459225⟩

def shaRound (st : Hash8) (kw : Nat × Nat) : Hash8 :=
  let t1 := add32 (add32 (add32 st.hh (bsig1 st.e)) (add32 (chf st.e st.f st.g) kw.1)) kw.2
  let t2 := add32 (bsig0 st.a) (majf st.a st.b st.c)
  ⟨add32 t1 t2, st.a, st.b, st.c, add32 st.d t1, st.e, st.f, st.g⟩

def schedStep (ws : List Nat) : List Nat :=
  let n := ws.length
  ws ++ [add32 (add32 (ssig1 (ws.getD (n - 2) 0)) (ws.getD (n - 7) 0))
               (add32 (ssig0 (ws.getD (n - 15) 0)) (ws.getD (n - 16) 0))]

def iterateN (f : α → α) : Nat → α → α
  | 0, x => x
  | n + 1, x => iterateN f n (f x)

def scheduleWords (ws : List Nat) : List Nat := iterateN schedStep 48 ws

def bytesToWords : List Nat → List Nat
  | b0 :: b1 :: b2 :: b3 :: rest =>
      (b0 * 16777216 + b1 * 65536 + b2 * 256 + b3) :: bytesToWords rest
  | _ => []

def beBytes : Nat → Nat → List Nat
  | 0, _ => []
  | k + 1, n => beBytes k (n >>> 8) ++ [n % 256]

def padMsg (msg : List Nat) : List Nat :=
  let len := msg.length
  msg ++ 128 :: List.replicate ((119 - (len % 64)) % 64) 0 ++ beBytes 8 (len * 8)

def chunksAux : Nat → List Nat → List (List Nat)
  | 0, _ => []
  | _, [] => []
  | fuel + 1, x :: xs => (x :: xs).take 64 :: chunksAux fuel ((x :: xs).drop 64)

def chunks64 (l : List Nat) : List (List Nat) := chunksAux l.length l

def compressBlock (st : Hash8) (ws : List Nat) : Hash8 :=
  (sha256K.zip ws).foldl shaRound st

def addState (x y : Hash8) : Hash8 :=
  ⟨add32 x.a y.a, add32 x.b y.b, add32 x.c y.c, add32 x.d y.d,
   add32 x.e y.e, add32 x.f y.f, add32 x.g y.g, add32 x.hh y.hh⟩

def processBlock (st : Hash8) (block : List Nat) : Hash8 :=
  addState st (compressBlock st (scheduleWords (bytesToWords block)))

def sha256Words (msg : List Nat) : Hash8 :=
  (chunks64 (padMsg msg)).foldl processBlock initH

def hexChar (n : Nat) : Char := if n < 10 then Char.ofNat (48 + n) else Char.ofNat (87 + n)

def wordHex (w : Nat) : List Char :=
  [hexChar ((w >>> 28) &&& 15), hexChar ((w >>> 24) &&& 15), hexChar ((w >>> 20) &&& 15),
   hexChar ((w >>> 16) &&& 15), hexChar ((w >>> 12) &&& 15), hexChar ((w >>> 8) &&& 15),
   hexChar ((w >>> 4) &&& 15), hexChar (w &&& 15)]

def hash8Hex (st : Hash8) : String :=
  String.mk (List.flatten
    [wordHex st.a, wordHex st.b, wordHex st.c, wordHex st.d,
     wordHex st.e, wordHex st.f, wordHex st.g, wordHex st.hh])

/-- UTF-8 encoding of one character, as Python's `str.encode` produces. -/
def utf8Char (c : Char) : List Nat :=
  let n := c.toNat
  if n < 128 then [n]
  else if n < 2048 then [192 ||| (n >>> 6), 128 ||| (n &&& 63)]
  else if n < 65536 then
    [224 ||| (n >>> 12), 128 ||| ((n >>> 6) &&& 63), 128 ||| (n &&& 63)]
  else
    [240 ||| (n >>> 18), 128 ||| ((n >>> 12) &&& 63), 128 ||| ((n >>> 6) &&& 63), 128 ||| (n &&& 63)]

def utf8Bytes (s : String) : List Nat := (s.toList.map utf8Char).flatten

/-- Hex digest of the SHA-256 of a string, mirroring
`hashlib.sha256(s.encode('utf-8')).hexdigest()`. -/
def sha256hex (s : String) : String := hash8Hex (sha256Words (utf8Bytes s))

example : sha256hex "abc" = "ba7816bf8f01cfea414140de5dae2223b00361a396177a9cb410ff61f20015ad" := by
  decide

example : sha256hex "" = "e3b0c44298fc1c149afbf4c8996fb92427ae41e4649b934ca495991b7852b855" := by
  decide

/-! Timestamps.  `generate_reading_hash` accepts either a structured
datetime or a string (`hash_chain.py` lines 30-34).  A Python `datetime`
is modelled by its calendar components; `isoformat` renders it the way
`datetime.isoformat()` does, and `pyStr` the way `str(datetime)` does
(identical except for the space separator). -/

structure DateTime where
  year : Nat
  month : Nat
  day : Nat
  hour : Nat
  minute : Nat
  second : Nat
  microsecond : Nat
deriving DecidableEq

def padNat (w n : Nat) : String :=
  let s := toString n
  String.mk (List.replicate (w - s.length) '0') ++ s

def isoformatSep (sep : Char) (d : DateTime) : String :=
  padNat 4 d.year ++ "-" ++ padNat 2 d.month ++ "-" ++ padNat 2 d.day ++ String.mk [sep] ++
  padNat 2 d.hour ++ ":" ++ padNat 2 d.minute ++ ":" ++ padNat 2 d.second ++
  (if d.microsecond = 0 then "" else "." ++ padNat 6 d.microsecond)

def isoformat (d : DateTime) : String := isoformatSep 'T' d

def pyStr (d : DateTime) : String := isoformatSep ' ' d

/-- A timestamp as passed to `generate_reading_hash`: either a Python
`datetime` object or a plain string. -/
inductive PyTimestamp where
  | dt (d : DateTime)
  | str (s : String)
deriving DecidableEq

/-- Lines 30-34 of `hash_chain.py`: a datetime is rendered with
`.isoformat()`, anything else goes through `str(...)`, which on a string
is the identity. -/
def timestampStr : PyTimestamp → String
  | .dt d => isoformat d
  | .str s => s

/-! The hashed fields of a reading.  The non-timestamp fields are
modelled as the strings that Python's f-string interpolation produces
for them, since `generate_reading_hash` only ever uses them through
string interpolation. -/

structure ReadingFields where
  timestamp : PyTimestamp
  segment_id : String
  sensor_id : String
  pressure_psig : String
  maop_psig : String
  recorded_by : String
  data_source : String
deriving DecidableEq

instance : Inhabited ReadingFields :=
  ⟨⟨PyTimestamp.str "", "", "", "", "", "", ""⟩⟩

/-- Lines 12-50 of `hash_chain.py`: join the fields and the previous
hash with the bar delimiter and take the SHA-256 hex digest. -/
def generate_reading_hash (f : ReadingFields) (previous_hash : String) : String :=
  sha256hex
    (timestampStr f.timestamp ++ "|" ++ f.segment_id ++ "|" ++ f.sensor_id ++ "|" ++
     f.pressure_psig ++ "|" ++ f.maop_psig ++ "|" ++ f.recorded_by ++ "|" ++
     f.data_source ++ "|" ++ previous_hash)

/-- A stored row of `dbo.Readings`, restricted to the columns the hash
engine reads back. -/
structure ReadingRow where
  readingID : Nat
  fields : ReadingFields
  hash_signature : String
deriving DecidableEq

instance : Inhabited ReadingRow := ⟨⟨0, default, ""⟩⟩

/-- The loop of `verify_hash_chain` (lines 159-189): walk rows in
ascending `ReadingID` order, recompute each digest from the stored
fields and the running previous hash, stop at the first mismatch. -/
def verifyLoop (prev : String) (checked : Nat) : List ReadingRow → Bool × Option Nat × Nat
  | [] => (true, none, checked)
  | r :: rest =>
      if r.hash_signature ≠ generate_reading_hash r.fields prev then
        (false, some r.readingID, checked)
      else
        verifyLoop r.hash_signature (checked + 1) rest

/-- `verify_hash_chain` (lines 131-189) applied to the rows fetched in
ascending `ReadingID` order; the running previous hash starts empty. -/
def verify_hash_chain (rows : List ReadingRow) : Bool × Option Nat × Nat :=
  verifyLoop "" 0 rows

/-- The loop of `rebuild_hash_chain` (lines 216-241): recompute every
digest from the stored fields, threading the previous digest, and count
the updated rows. -/
def rebuildLoop (prev : String) : List ReadingRow → List ReadingRow × Nat
  | [] => ([], 0)
  | r :: rest =>
      let newHash := generate_reading_hash r.fields prev
      (({ r with hash_signature := newHash } : ReadingRow) :: (rebuildLoop newHash rest).1,
       (rebuildLoop newHash rest).2 + 1)

/-- `rebuild_hash_chain` (lines 192-245): returns the rewritten rows and
the number of rows updated. -/
def rebuild_hash_chain (rows : List ReadingRow) : List ReadingRow × Nat :=
  rebuildLoop "" rows

/-- Chain produced by repeated `insert_reading_with_hash` starting from
an empty table: each insert fetches the tail digest (empty at the
start), hashes the new reading against it, and the store assigns
consecutive ids. -/
def buildLoop (prev : String) (nextId : Nat) : List ReadingFields → List ReadingRow
  | [] => []
  | f :: fs =>
      let sig := generate_reading_hash f prev
      ⟨nextId, f, sig⟩ :: buildLoop sig (nextId + 1) fs

def insert_chain (fs : List ReadingFields) (startId : Nat) : List ReadingRow :=
  buildLoop "" startId fs

/-- Tampering: overwrite the hashed fields of the row at position `i`,
leaving its stored `hash_signature` (and every other row) untouched. -/
def mutateAt : List ReadingRow → Nat → ReadingFields → List ReadingRow
  | [], _, _ => []
  | r :: rs, 0, f' => { r with fields := f' } :: rs
  | r :: rs, i + 1, f' => r :: mutateAt rs i f'

/-- Digest of the reading at position `i` of the chain built from `fs`
with initial previous hash `prev`. -/
def chainSig (prev : String) : List ReadingFields → Nat → String
  | [], _ => ""
  | f :: _, 0 => generate_reading_hash f prev
  | f :: fs, i + 1 => chainSig (generate_reading_hash f prev) fs i

/-- Previous-hash input used for the reading at position `i` of the
chain built from `fs` with initial previous hash `prev`. -/
def chainPrev (prev : String) : List ReadingFields → Nat → String
  | _, 0 => prev
  | [], _ + 1 => prev
  | f :: fs, i + 1 => chainPrev (generate_reading_hash f prev) fs i

/-- A single-field tamper: `f'` agrees with `f` on all but one of the
seven hashed fields. -/
def OneFieldMutation (f f' : ReadingFields) : Prop :=
  f' ≠ f ∧
  ((∃ t, f' = { f with timestamp := t }) ∨
   (∃ v, f' = { f with segment_id := v }) ∨
   (∃ v, f' = { f with sensor_id := v }) ∨
   (∃ v, f' = { f with pressure_psig := v }) ∨
   (∃ v, f' = { f with maop_psig := v }) ∨
   (∃ v, f' = { f with recorded_by := v }) ∨
   (∃ v, f' = { f with data_source := v }))

theorem verifyLoop_buildLoop (fs : List ReadingFields) :
    ∀ prev c n, verifyLoop prev c (buildLoop prev n fs) = (true, none, c + fs.length) := by
  induction fs with
  | nil => intro prev c n; simp [buildLoop, verifyLoop]
  | cons f fs ih =>
      intro prev c n
      simp only [buildLoop, verifyLoop, ne_eq, not_true_eq_false, if_false, ite_not]
      rw [ih]
      simp only [List.length_cons, Prod.mk.injEq, Option.some.injEq, true_and]
      omega

theorem buildLoop_length (fs : List ReadingFields) :
    ∀ prev n, (buildLoop prev n fs).length = fs.length := by
  induction fs with
  | nil => intro prev n; simp [buildLoop]
  | cons f fs ih => intro prev n; simp [buildLoop, ih]

theorem buildLoop_getD_id (fs : List ReadingFields) :
    ∀ i prev n, i < fs.length →
      ((buildLoop prev n fs).getD i default).readingID = n + i := by
  induction fs with
  | nil => intro i prev n h; simp at h
  | cons f fs ih =>
      intro i prev n h
      match i with
      | 0 => simp [buildLoop]
      | i + 1 =>
          simp only [buildLoop, List.getD_cons_succ]
          rw [ih i _ (n + 1) (by simpa using h)]
          omega

theorem verifyLoop_mutate (fs : List ReadingFields) :
    ∀ i prev c n f', i < fs.length →
      generate_reading_hash f' (chainPrev prev fs i) ≠ chainSig prev fs i →
      verifyLoop prev c (mutateAt (buildLoop prev n fs) i f') = (false, some (n + i), c + i) := by
  induction fs with
  | nil => intro i prev c n f' h; simp at h
  | cons f fs ih =>
      intro i prev c n f' h hne
      match i with
      | 0 =>
          simp only [chainPrev, chainSig] at hne
          simp only [buildLoop, mutateAt, verifyLoop]
          rw [if_pos (by simpa [eq_comm] using hne)]
          simp
      | i + 1 =>
          simp only [chainPrev, chainSig] at hne
          simp only [buildLoop, mutateAt, verifyLoop, ne_eq, not_true_eq_false, if_false, ite_not]
          rw [ih i _ (c + 1) (n + 1) f' (by simpa using h) hne]
          simp only [Prod.mk.injEq, Option.some.injEq, true_and]
          omega

/-- C1: for every chain of length at least 2 produced by the engine,
mutating any single hashed field of any record except the last (so that
the record's recomputed digest changes, i.e. barring a SHA-256
collision) and then running verify returns invalid, with the first
broken id equal to the mutated record's ReadingID and the verified
count equal to the number of records strictly before it. -/
theorem c1_tamper_detection (fs : List ReadingFields) (startId i : Nat) (f' : ReadingFields)
    (_hlen : 2 ≤ fs.length) (hi : i + 1 < fs.length)
    (_hmut : OneFieldMutation (fs.getD i default) f')
    (hdig : generate_reading_hash f' (chainPrev "" fs i) ≠ chainSig "" fs i) :
    verify_hash_chain (mutateAt (insert_chain fs startId) i f') =
      (false, some ((insert_chain fs startId).getD i default).readingID, i) := by
  have hi' : i < fs.length := Nat.lt_of_succ_lt hi
  unfold verify_hash_chain insert_chain
  rw [verifyLoop_mutate fs i "" 0 startId f' hi' hdig]
  rw [buildLoop_getD_id fs i "" startId hi']
  simp

/-! C2 vocabulary: stored digest and spec-side recomputed digest at a
position of the chain. -/

def storedSigAt (rows : List ReadingRow) (i : Nat) : String :=
  (rows.getD i default).hash_signature

def recomputedFrom (prev : String) (rows : List ReadingRow) (i : Nat) : String :=
  generate_reading_hash (rows.getD i default).fields
    (if i = 0 then prev else storedSigAt rows (i - 1))

/-- Digest the verify pass expects at position `i`: recomputed from the
stored fields, with the previous record's stored digest as previous
hash (empty string at position 0). -/
def specRecomputed (rows : List ReadingRow) (i : Nat) : String :=
  recomputedFrom "" rows i

theorem storedSigAt_cons_succ (r : ReadingRow) (rest : List ReadingRow) (i : Nat) :
    storedSigAt (r :: rest) (i + 1) = storedSigAt rest i := by
  simp [storedSigAt]

theorem recomputedFrom_cons_succ (prev : String) (r : ReadingRow) (rest : List ReadingRow)
    (i : Nat) : recomputedFrom prev (r :: rest) (i + 1) = recomputedFrom r.hash_signature rest i := by
  match i with
  | 0 => simp [recomputedFrom, storedSigAt]
  | j + 1 => simp [recomputedFrom, storedSigAt_cons_succ]

theorem verifyLoop_all_ok (rows : List ReadingRow) :
    ∀ prev c, (∀ i, i < rows.length → storedSigAt rows i = recomputedFrom prev rows i) →
      verifyLoop prev c rows = (true, none, c + rows.length) := by
  induction rows with
  | nil => intro prev c _; simp [verifyLoop]
  | cons r rest ih =>
      intro prev c hall
      have h0 : r.hash_signature = generate_reading_hash r.fields prev := by
        simpa [storedSigAt, recomputedFrom] using hall 0 (by simp)
      simp only [verifyLoop]
      rw [if_neg (by simp [h0])]
      rw [ih r.hash_signature (c + 1) (fun i hi => by
        have := hall (i + 1) (by simpa using hi)
        rwa [storedSigAt_cons_succ, recomputedFrom_cons_succ] at this)]
      simp only [List.length_cons, Prod.mk.injEq, Option.some.injEq, true_and]
      omega

theorem verifyLoop_first_bad (rows : List ReadingRow) :
    ∀ i prev c, i < rows.length →
      (∀ j, j < i → storedSigAt rows j = recomputedFrom prev rows j) →
      storedSigAt rows i ≠ recomputedFrom prev rows i →
      verifyLoop prev c rows = (false, some (rows.getD i default).readingID, c + i) := by
  induction rows with
  | nil => intro i prev c h; simp at h
  | cons r rest ih =>
      intro i prev c h hgood hbad
      match i with
      | 0 =>
          have hne : r.hash_signature ≠ generate_reading_hash r.fields prev := by
            simpa [storedSigAt, recomputedFrom] using hbad
          simp only [verifyLoop]
          rw [if_pos (by simpa using hne)]
          simp
      | i + 1 =>
          have h0 : r.hash_signature = generate_reading_hash r.fields prev := by
            simpa [storedSigAt, recomputedFrom] using hgood 0 (Nat.succ_pos i)
          simp only [verifyLoop]
          rw [if_neg (by simp [h0])]
          rw [ih i r.hash_signature (c + 1) (by simpa using h)
            (fun j hj => by
              have := hgood (j + 1) (by omega)
              rwa [storedSigAt_cons_succ, recomputedFrom_cons_succ] at this)
            (by rw [storedSigAt_cons_succ, recomputedFrom_cons_succ] at hbad; exact hbad)]
          simp only [List.getD_cons_succ, Prod.mk.injEq, Option.some.injEq, true_and]
          omega

/-- C2: verify walks records in ascending ReadingID order threading a
running previous hash that starts at the empty string; on an empty
chain it returns (valid, no broken id, zero verified); on a chain with
no mismatch it returns (valid, no broken id, chain length); on the
first record whose stored hash_signature differs from the recomputed
digest it returns (invalid, that record's id, count of records strictly
before it), independently of all later records. -/
theorem c2_verify_postcondition :
    (verify_hash_chain [] = (true, none, 0)) ∧
    (∀ rows : List ReadingRow,
        (∀ i, i < rows.length → storedSigAt rows i = specRecomputed rows i) →
        verify_hash_chain rows = (true, none, rows.length)) ∧
    (∀ (rows : List ReadingRow) (i : Nat), i < rows.length →
        (∀ j, j < i → storedSigAt rows j = specRecomputed rows j) →
        storedSigAt rows i ≠ specRecomputed rows i →
        verify_hash_chain rows = (false, some (rows.getD i default).readingID, i)) := by
  refine ⟨rfl, ?_, ?_⟩
  · intro rows hall
    have := verifyLoop_all_ok rows "" 0 hall
    simpa [verify_hash_chain] using this
  · intro rows i hi hgood hbad
    have := verifyLoop_first_bad rows i "" 0 hi hgood hbad
    simpa [verify_hash_chain] using this

/-! C7: rebuild then verify. -/

theorem verifyLoop_rebuildLoop (rows : List ReadingRow) :
    ∀ prev c, verifyLoop prev c (rebuildLoop prev rows).1 = (true, none, c + rows.length) ∧
      (rebuildLoop prev rows).2 = rows.length := by
  induction rows with
  | nil => intro prev c; simp [rebuildLoop, verifyLoop]
  | cons r rest ih =>
      intro prev c
      simp only [rebuildLoop, verifyLoop, ne_eq, not_true_eq_false, if_false, ite_not]
      constructor
      · rw [(ih (generate_reading_hash r.fields prev) (c + 1)).1]
        simp only [List.length_cons, Prod.mk.injEq, Option.some.injEq, true_and]
        omega
      · rw [(ih (generate_reading_hash r.fields prev) c).2]
        simp

/-- C7: for every starting chain state, even a corrupted one, rebuild
recomputes every digest in ascending order threading the previous
digest from the empty string, so an immediate verify returns valid with
no broken id and a verified count equal to the chain length, and
rebuild reports exactly that many updated records. -/
theorem c7_rebuild_then_verify (rows : List ReadingRow) :
    verify_hash_chain (rebuild_hash_chain rows).1 = (true, none, rows.length) ∧
    (rebuild_hash_chain rows).2 = rows.length := by
  have h := verifyLoop_rebuildLoop rows "" 0
  exact ⟨by simpa [verify_hash_chain, rebuild_hash_chain] using h.1,
         by simpa [rebuild_hash_chain] using h.2⟩

/-! C3: serialization format and chain determinism. -/

/-- Spec-side serialization: the canonical timestamp string, entity id,
sensor id, pressure value, pressure limit, recorder id, data source and
the previous record's digest, in this fixed order, joined by the bar
delimiter. -/
def specSerialize (f : ReadingFields) (previous_hash : String) : String :=
  String.intercalate "|"
    [timestampStr f.timestamp, f.segment_id, f.sensor_id, f.pressure_psig,
     f.maop_psig, f.recorded_by, f.data_source, previous_hash]

theorem sha256hex_length (s : String) : (sha256hex s).length = 64 := by
  simp [sha256hex, hash8Hex, wordHex, String.length]

theorem buildLoop_sigs_id_free (fs : List ReadingFields) :
    ∀ prev n m, (buildLoop prev n fs).map (fun r => r.hash_signature) =
      (buildLoop prev m fs).map (fun r => r.hash_signature) := by
  induction fs with
  | nil => intro prev n m; simp [buildLoop]
  | cons f fs ih => intro prev n m; simp only [buildLoop, List.map_cons]; rw [ih]

/-- C3: the per-record hash is SHA-256 of the '|'-joined serialization
of exactly the seven hashed fields followed by the previous digest, as
a fixed-length (64 character) hex digest, and the digests of a chain
built by re-running the same insert sequence from an empty chain do not
depend on anything but that sequence (in particular not on the ids the
store assigns). -/
theorem c3_serialization :
    (∀ (f : ReadingFields) (prev : String),
        generate_reading_hash f prev = sha256hex (specSerialize f prev)) ∧
    (∀ (f : ReadingFields) (prev : String), (generate_reading_hash f prev).length = 64) ∧
    (∀ (fs : List ReadingFields) (n m : Nat),
        (insert_chain fs n).map (fun r => r.hash_signature) =
          (insert_chain fs m).map (fun r => r.hash_signature)) := by
  refine ⟨?_, ?_, ?_⟩
  · intro f prev
    simp [generate_reading_hash, specSerialize, String.intercalate, String.intercalate.go,
      String.append_assoc]
  · intro f prev
    exact sha256hex_length _
  · intro fs n m
    exact buildLoop_sigs_id_free fs "" n m

/-! C5: timestamp canonicalization. -/

/-- C5 (amended): a structured datetime and the string that is exactly
its ISO-8601 `isoformat` rendering hash identically; canonicalization
applies only to structured datetime input, so this is the only string
form guaranteed to match. -/
theorem c5_isoformat_string_matches (f : ReadingFields) (d : DateTime) (prev : String) :
    generate_reading_hash { f with timestamp := PyTimestamp.dt d } prev =
      generate_reading_hash { f with timestamp := PyTimestamp.str (isoformat d) } prev := by
  simp [generate_reading_hash, timestampStr]

def c5DT : DateTime := ⟨2024, 1, 1, 0, 0, 0, 0⟩

def c5Fields (t : PyTimestamp) : ReadingFields :=
  ⟨t, "SEG-A", "7", "750.0", "1000.0", "SCADA", "SCADA"⟩

/-- C5 (counterexample): `str(datetime(2024,1,1))` is the space-separated
rendering of the same instant as `datetime(2024,1,1)` itself, yet the
digest computed from the datetime differs from the digest computed from
that equivalent string form, so hashing is not insensitive to the
representation of the timestamp. -/
theorem c5_counterexample :
    pyStr c5DT = "2024-01-01 00:00:00" ∧
    isoformat c5DT = "2024-01-01T00:00:00" ∧
    generate_reading_hash (c5Fields (PyTimestamp.dt c5DT)) "" ≠
      generate_reading_hash (c5Fields (PyTimestamp.str (pyStr c5DT))) "" := by
  refine ⟨by decide, by decide, by decide⟩

/-! Threshold rule evaluator (`demo_logic.py`).  A threshold rule pairs
a ratio bound (the `threshold_ratio` key of `rules.json`, here named
`thresholdVal`) with a status label.  Numeric values are `ℚ`. -/

structure ThresholdRule where
  thresholdVal : ℚ
  status : String
deriving DecidableEq

/-- The for-loop of `evaluate_status` (lines 32-36): first rule whose
threshold the ratio reaches (`ratio >= threshold`) wins, else "OK". -/
def statusLoop (rr : ℚ) : List ThresholdRule → String
  | [] => "OK"
  | t :: ts => if t.thresholdVal ≤ rr then t.status else statusLoop rr ts

/-- Line 29: `sorted(thresholds, key=..., reverse=True)` — a stable sort
descending by threshold ratio, modelled by insertion sort with the
reflexive descending relation (stable, like Python's `sorted`). -/
def sortRulesDesc (ts : List ThresholdRule) : List ThresholdRule :=
  ts.insertionSort (fun a b => b.thresholdVal ≤ a.thresholdVal)

/-- `evaluate_status` (lines 11-36): raises `ValueError` for
`maop_psig <= 0` before computing the ratio, otherwise scans the rules
sorted descending. -/
def evaluate_status (pressure_psig maop_psig : ℚ) (thresholds : List ThresholdRule) :
    Except String String :=
  if maop_psig ≤ 0 then Except.error ("Invalid MAOP: " ++ toString maop_psig)
  else Except.ok (statusLoop (pressure_psig / maop_psig) (sortRulesDesc thresholds))

/-- Spec-side: the first rule in the given (descending) order whose
threshold is less than or equal to the ratio wins; if none matches the
result is "OK". -/
def specFirstStatus (rr : ℚ) (rules : List ThresholdRule) : String :=
  match rules.find? (fun t => decide (t.thresholdVal ≤ rr)) with
  | some t => t.status
  | none => "OK"

theorem statusLoop_eq_find (rr : ℚ) : ∀ l, statusLoop rr l = specFirstStatus rr l
  | [] => rfl
  | t :: l => by
      by_cases h : t.thresholdVal ≤ rr
      · simp [statusLoop, specFirstStatus, List.find?_cons, h]
      · simp only [statusLoop, specFirstStatus, List.find?_cons, h, if_neg h,
          decide_eq_true_eq, if_false]
        rw [statusLoop_eq_find rr l]
        simp [specFirstStatus, h]

/-- C8: for every pressure, every limit > 0 and every rule set, the
evaluator returns the label of the first rule, in descending threshold
order, whose threshold is less than or equal to the ratio; a ratio
exactly equal to a rule's threshold matches it, and a ratio below every
threshold yields "OK". -/
theorem c8_threshold_evaluator (p m : ℚ) (ts : List ThresholdRule) (hm : 0 < m) :
    evaluate_status p m ts = Except.ok (specFirstStatus (p / m) (sortRulesDesc ts)) ∧
    ((∀ t ∈ ts, p / m < t.thresholdVal) → evaluate_status p m ts = Except.ok "OK") ∧
    (∀ t rest, sortRulesDesc ts = t :: rest → t.thresholdVal = p / m →
        evaluate_status p m ts = Except.ok t.status) := by
  have hnle : ¬ m ≤ 0 := not_le.mpr hm
  refine ⟨?_, ?_, ?_⟩
  · unfold evaluate_status
    rw [if_neg hnle, statusLoop_eq_find]
  · intro hall
    unfold evaluate_status
    rw [if_neg hnle, statusLoop_eq_find]
    unfold specFirstStatus
    rw [List.find?_eq_none.mpr]
    intro t ht
    have : t ∈ ts := (List.perm_insertionSort _ ts).subset ht
    simpa using not_le.mpr (hall t this)
  · intro t rest hs ht
    unfold evaluate_status
    rw [if_neg hnle, hs]
    simp [statusLoop, ht]

/-- C9: with pairwise distinct threshold ratios, the evaluator's result
does not depend on the order in which the rules are supplied, because
it sorts them internally. -/
theorem c9_rule_order_independence (p m : ℚ) (ts1 ts2 : List ThresholdRule) (_hm : 0 < m)
    (hperm : ts1.Perm ts2)
    (hdist : ts1.Pairwise (fun a b => a.thresholdVal ≠ b.thresholdVal)) :
    evaluate_status p m ts1 = evaluate_status p m ts2 := by
  haveI htot : IsTotal ThresholdRule (fun a b => b.thresholdVal ≤ a.thresholdVal) :=
    ⟨fun a b => le_total b.thresholdVal a.thresholdVal⟩
  haveI htr : IsTrans ThresholdRule (fun a b => b.thresholdVal ≤ a.thresholdVal) :=
    ⟨fun _ _ _ hab hbc => le_trans hbc hab⟩
  haveI : IsAntisymm ThresholdRule
      (fun a b => b.thresholdVal < a.thresholdVal ∨ a = b) := by
    refine ⟨fun a b hab hba => ?_⟩
    rcases hab with h | h
    · rcases hba with h' | h'
      · exact absurd h' (lt_asymm h)
      · exact h'.symm
    · exact h
  have hdist2 : ts2.Pairwise (fun a b => a.thresholdVal ≠ b.thresholdVal) :=
    (hperm.pairwise_iff (fun h => h.symm)).mp hdist
  have hd1 : (sortRulesDesc ts1).Pairwise (fun a b => a.thresholdVal ≠ b.thresholdVal) :=
    ((List.perm_insertionSort _ ts1).pairwise_iff (fun h => h.symm)).mpr hdist
  have hd2 : (sortRulesDesc ts2).Pairwise (fun a b => a.thresholdVal ≠ b.thresholdVal) :=
    ((List.perm_insertionSort _ ts2).pairwise_iff (fun h => h.symm)).mpr hdist2
  have hp1 : (sortRulesDesc ts1).Pairwise (fun a b => b.thresholdVal ≤ a.thresholdVal) :=
    List.sorted_insertionSort _ ts1
  have hp2 : (sortRulesDesc ts2).Pairwise (fun a b => b.thresholdVal ≤ a.thresholdVal) :=
    List.sorted_insertionSort _ ts2
  have hs1 : (sortRulesDesc ts1).Pairwise
      (fun a b => b.thresholdVal < a.thresholdVal ∨ a = b) :=
    (hp1.and hd1).imp (fun hab => Or.inl (lt_of_le_of_ne hab.1 hab.2.symm))
  have hs2 : (sortRulesDesc ts2).Pairwise
      (fun a b => b.thresholdVal < a.thresholdVal ∨ a = b) :=
    (hp2.and hd2).imp (fun hab => Or.inl (lt_of_le_of_ne hab.1 hab.2.symm))
  have hsp : List.Perm (sortRulesDesc ts1) (sortRulesDesc ts2) :=
    ((List.perm_insertionSort _ ts1).trans hperm).trans (List.perm_insertionSort _ ts2).symm
  have hsort : sortRulesDesc ts1 = sortRulesDesc ts2 :=
    List.eq_of_perm_of_sorted hsp hs1 hs2
  unfold evaluate_status
  rw [hsort]

/-! Transient filter (`transient_filter.py`).  Timestamps are modelled
as rational numbers of minutes, so `timedelta(minutes=w)` is the
rational `w`; the DataFrame becomes a list of rows. -/

structure TelemetryRow where
  readingID : Option Nat
  timestamp : ℚ
  segmentID : String
  segmentName : Option String
  pressurePSIG : ℚ
  maopPSIG : ℚ
deriving DecidableEq

/-- One output row of `calculate_moving_average` (the dict built at
lines 69-82); the `InstantRatio` and `MovingAvgRatio` columns are named
`instantPct` and `movingAvgPct` here since the code stores them as
percentages. -/
structure ResultRow where
  readingID : Option Nat
  timestamp : ℚ
  segmentID : String
  segmentName : String
  pressurePSIG : ℚ
  maopPSIG : ℚ
  instantPct : ℚ
  movingAvgPressure : ℚ
  movingAvgPct : ℚ
  windowSize : Nat
  isTransient : Bool
  alertType : String
deriving DecidableEq

/-- Ordering used by `df.sort_values(['SegmentID', 'Timestamp'])`:
lexicographic on segment id then timestamp.  (pandas does not fix the
relative order of rows with equal keys; insertion sort picks the stable
order.) -/
def sortRows (rows : List TelemetryRow) : List TelemetryRow :=
  rows.insertionSort
    (fun a b => a.segmentID < b.segmentID ∨ (a.segmentID = b.segmentID ∧ a.timestamp ≤ b.timestamp))

/-- `df['SegmentID'].unique()`: segment ids in order of first
appearance. -/
def uniqueSegs (rows : List TelemetryRow) : List String :=
  (rows.map (fun r => r.segmentID)).foldl (fun acc s => if s ∈ acc then acc else acc ++ [s]) []

/-- Lines 41-44: membership of a row in the current reading's time
window, `window_start <= ts <= current_time`, both ends inclusive. -/
def inWindow (r x : TelemetryRow) (w : ℚ) : Bool :=
  decide (r.timestamp - w ≤ x.timestamp) && decide (x.timestamp ≤ r.timestamp)

/-- Lines 36-82 for one row `r` of one segment's data `segData`: the
window is filtered from the segment's rows, the moving average is the
window's mean pressure, and the alert logic compares the percentages to
the hardcoded 95. -/
def codeResultRow (segData : List TelemetryRow) (w : ℚ) (r : TelemetryRow) : ResultRow :=
  let windowData := segData.filter (fun x => inWindow r x w)
  let avgPressure := (windowData.map (fun x => x.pressurePSIG)).sum / (windowData.length : ℚ)
  let avgPct := (avgPressure / r.maopPSIG) * 100
  let curPct := (r.pressurePSIG / r.maopPSIG) * 100
  let isTr := if 95 ≤ curPct then (if 95 ≤ avgPct then false else true) else false
  let alert := if 95 ≤ curPct then (if 95 ≤ avgPct then "SUSTAINED" else "SPIKE") else "NORMAL"
  ⟨r.readingID, r.timestamp, r.segmentID, r.segmentName.getD "", r.pressurePSIG, r.maopPSIG,
   curPct, avgPressure, avgPct, windowData.length, isTr, alert⟩

/-- `calculate_moving_average` (lines 12-84): sort by segment and time,
then for each segment in order of appearance classify each of its rows
against the moving average over that segment's rows. -/
def calculate_moving_average (rows : List TelemetryRow) (w : ℚ) : List ResultRow :=
  let sorted := sortRows rows
  ((uniqueSegs sorted).map (fun s =>
    let segData := sorted.filter (fun r => decide (r.segmentID = s))
    segData.map (codeResultRow segData w))).flatten

/-- `classify_reading` (lines 128-150).  Python raises
`ZeroDivisionError` when `maop` is zero (there is no explicit limit
check in this function); any nonzero `maop`, negative included, yields
a classification tuple `(alert_type, is_transient, instant, avg)` in
percent. -/
def classify_reading (current_pressure maop moving_avg_pressure threshold_pct : ℚ) :
    Except String (String × Bool × ℚ × ℚ) :=
  if maop = 0 then Except.error "ZeroDivisionError"
  else
    let instPct := (current_pressure / maop) * 100
    let avgPct := (moving_avg_pressure / maop) * 100
    if threshold_pct ≤ instPct then
      if threshold_pct ≤ avgPct then Except.ok ("SUSTAINED", false, instPct, avgPct)
      else Except.ok ("SPIKE", true, instPct, avgPct)
    else Except.ok ("NORMAL", false, instPct, avgPct)

instance {ε α : Type} [DecidableEq ε] [DecidableEq α] : DecidableEq (Except ε α) := fun x y =>
  match x, y with
  | .error a, .error b =>
      if h : a = b then isTrue (by rw [h]) else isFalse (fun hc => h (Except.error.inj hc))
  | .ok a, .ok b =>
      if h : a = b then isTrue (by rw [h]) else isFalse (fun hc => h (Except.ok.inj hc))
  | .error _, .ok _ => isFalse (fun hc => Except.noConfusion hc)
  | .ok _, .error _ => isFalse (fun hc => Except.noConfusion hc)

/-- C6 (counterexample): with a negative limit the classifier does not
fail; it computes a ratio and returns a NORMAL classification. -/
theorem c6_counterexample :
    classify_reading 50 (-100) 50 95 = Except.ok ("NORMAL", false, -50, -50) := by
  with_unfolding_all decide

/-- C6 (amended): the threshold evaluator rejects every limit <= 0 with
a configuration error before computing the ratio; the classifier only
fails (with Python's division-by-zero error) when the limit is exactly
zero, and for a negative limit it computes a ratio and returns a
classification. -/
theorem c6_zero_negative_limit :
    (∀ (p m : ℚ) (ts : List ThresholdRule), m ≤ 0 →
        evaluate_status p m ts = Except.error ("Invalid MAOP: " ++ toString m)) ∧
    (∀ p avg pct : ℚ, classify_reading p 0 avg pct = Except.error "ZeroDivisionError") ∧
    (∀ p m avg pct : ℚ, m < 0 → ∃ res, classify_reading p m avg pct = Except.ok res) := by
  refine ⟨?_, ?_, ?_⟩
  · intro p m ts hm
    unfold evaluate_status
    rw [if_pos hm]
  · intro p avg pct
    unfold classify_reading
    rw [if_pos rfl]
  · intro p m avg pct hm
    unfold classify_reading
    rw [if_neg (by exact ne_of_lt hm)]
    dsimp only
    split
    · split
      · exact ⟨_, rfl⟩
      · exact ⟨_, rfl⟩
    · exact ⟨_, rfl⟩

/-! C4: the moving-average classifier agrees with the spec's window and
decision table. -/

/-- The order in which `calculate_moving_average` visits the input
rows: segment by segment (segments in order of first appearance after
sorting), each segment's rows in sorted order. -/
def iterationOrder (rows : List TelemetryRow) : List TelemetryRow :=
  ((uniqueSegs (sortRows rows)).map
    (fun s => (sortRows rows).filter (fun r => decide (r.segmentID = s)))).flatten

/-- Spec-side window: all readings of the same entity with timestamp in
`[r.timestamp - w, r.timestamp]`, both ends inclusive, taken directly
from the input rows. -/
def specWindow (rows : List TelemetryRow) (r : TelemetryRow) (w : ℚ) : List TelemetryRow :=
  rows.filter (fun x => decide (x.segmentID = r.segmentID) && inWindow r x w)

/-- Spec-side classification of one reading: the instantaneous ratio
and the mean window ratio (each pressure divided by the current
reading's limit) compared against the threshold ratio 0.95, with the
spec's decision table. -/
def specResultRow (rows : List TelemetryRow) (w : ℚ) (r : TelemetryRow) : ResultRow :=
  let window := specWindow rows r w
  let instR := r.pressurePSIG / r.maopPSIG
  let avgR := (window.map (fun x => x.pressurePSIG / r.maopPSIG)).sum / (window.length : ℚ)
  let alert := if instR < 19/20 then "NORMAL" else if 19/20 ≤ avgR then "SUSTAINED" else "SPIKE"
  ⟨r.readingID, r.timestamp, r.segmentID, r.segmentName.getD "", r.pressurePSIG, r.maopPSIG,
   100 * instR, (window.map (fun x => x.pressurePSIG)).sum / (window.length : ℚ), 100 * avgR,
   window.length, decide (alert = "SPIKE"), alert⟩

/-- Spec-side single-reading classification with a caller-supplied
threshold percentage. -/
def specClassify (p m avg pct : ℚ) : String × Bool × ℚ × ℚ :=
  let instR := p / m
  let avgR := avg / m
  let thr := pct / 100
  if instR < thr then ("NORMAL", false, 100 * instR, 100 * avgR)
  else if thr ≤ avgR then ("SUSTAINED", false, 100 * instR, 100 * avgR)
  else ("SPIKE", true, 100 * instR, 100 * avgR)

theorem sum_map_div (l : List TelemetryRow) (g : TelemetryRow → ℚ) (c : ℚ) :
    (l.map (fun x => g x / c)).sum = (l.map g).sum / c := by
  induction l with
  | nil => simp
  | cons a l ih => simp [ih, add_div]

theorem div_swap (a b c : ℚ) : a / b / c = a / c / b := by
  ring

theorem alert_scale (x y : ℚ) :
    (if 95 ≤ x * 100 then (if 95 ≤ y * 100 then "SUSTAINED" else "SPIKE") else "NORMAL") =
      (if x < 19/20 then "NORMAL" else if 19/20 ≤ y then "SUSTAINED" else "SPIKE") := by
  rcases lt_or_le x (19/20) with h | h
  · rw [if_neg (by intro hc; linarith), if_pos h]
  · rw [if_pos (by linarith), if_neg (not_lt.mpr h)]
    rcases le_or_lt (19/20 : ℚ) y with h2 | h2
    · rw [if_pos (by linarith), if_pos h2]
    · rw [if_neg (by intro hc; linarith), if_neg (not_le.mpr h2)]

theorem transient_scale (x y : ℚ) :
    (if 95 ≤ x * 100 then (if 95 ≤ y * 100 then false else true) else false) =
      decide ((if x < 19/20 then "NORMAL" else if 19/20 ≤ y then "SUSTAINED" else "SPIKE")
        = "SPIKE") := by
  rcases lt_or_le x (19/20) with h | h
  · rw [if_neg (by intro hc; linarith), if_pos h]
    rfl
  · rw [if_pos (by linarith), if_neg (not_lt.mpr h)]
    rcases le_or_lt (19/20 : ℚ) y with h2 | h2
    · rw [if_pos (by linarith), if_pos h2]
      rfl
    · rw [if_neg (by intro hc; linarith), if_neg (not_le.mpr h2)]
      rfl

theorem codeResultRow_eq_spec (rows : List TelemetryRow) (w : ℚ) (s : String)
    (r : TelemetryRow) (hseg : r.segmentID = s) :
    codeResultRow ((sortRows rows).filter (fun x => decide (x.segmentID = s))) w r =
      specResultRow rows w r := by
  subst hseg
  have hperm : List.Perm
      (((sortRows rows).filter (fun x => decide (x.segmentID = r.segmentID))).filter
        (fun x => inWindow r x w))
      (specWindow rows r w) := by
    rw [List.filter_filter]
    rw [List.filter_congr
      (fun a _ => Bool.and_comm (inWindow r a w) (decide (a.segmentID = r.segmentID)))]
    exact (List.perm_insertionSort _ rows).filter _
  have hlen : (((sortRows rows).filter (fun x => decide (x.segmentID = r.segmentID))).filter
      (fun x => inWindow r x w)).length = (specWindow rows r w).length := hperm.length_eq
  have hsum : ((((sortRows rows).filter (fun x => decide (x.segmentID = r.segmentID))).filter
        (fun x => inWindow r x w)).map (fun x => x.pressurePSIG)).sum =
      ((specWindow rows r w).map (fun x => x.pressurePSIG)).sum :=
    (hperm.map (fun x => x.pressurePSIG)).sum_eq
  unfold codeResultRow specResultRow
  dsimp only
  rw [hsum, hlen, sum_map_div (specWindow rows r w) (fun x => x.pressurePSIG) r.maopPSIG]
  rw [div_swap ((specWindow rows r w).map (fun x => x.pressurePSIG)).sum r.maopPSIG
      (((specWindow rows r w).length : ℚ))]
  rw [transient_scale (r.pressurePSIG / r.maopPSIG)
      (((specWindow rows r w).map (fun x => x.pressurePSIG)).sum /
        ((specWindow rows r w).length : ℚ) / r.maopPSIG)]
  rw [alert_scale (r.pressurePSIG / r.maopPSIG)
      (((specWindow rows r w).map (fun x => x.pressurePSIG)).sum /
        ((specWindow rows r w).length : ℚ) / r.maopPSIG)]
  rw [mul_comm (r.pressurePSIG / r.maopPSIG) 100]
  rw [mul_comm (((specWindow rows r w).map (fun x => x.pressurePSIG)).sum /
        ((specWindow rows r w).length : ℚ) / r.maopPSIG) 100]

theorem calculate_moving_average_eq (rows : List TelemetryRow) (w : ℚ) :
    calculate_moving_average rows w = (iterationOrder rows).map (specResultRow rows w) := by
  unfold calculate_moving_average iterationOrder
  dsimp only
  rw [List.map_flatten, List.map_map]
  congr 1
  apply List.map_congr_left
  intro s _
  simp only [Function.comp_apply]
  apply List.map_congr_left
  intro r hr
  exact codeResultRow_eq_spec rows w s r (by simpa using (List.mem_filter.mp hr).2)

/-- C4: for readings with positive limits, the classifier emits, for
each input row (in its iteration order), exactly the spec's
classification: the window is the same-entity readings with timestamp
in `[t - w, t]` inclusive (including the reading itself), and the
decision table is NORMAL when the instantaneous ratio is below the
threshold, SUSTAINED when both instantaneous and window-average ratios
reach it, SPIKE when only the instantaneous one does; likewise for the
single-reading classifier with its caller-supplied threshold. -/
theorem c4_decision_table :
    (∀ (rows : List TelemetryRow) (w : ℚ), (∀ r ∈ rows, 0 < r.maopPSIG) →
        calculate_moving_average rows w = (iterationOrder rows).map (specResultRow rows w)) ∧
    (∀ p m avg pct : ℚ, 0 < m →
        classify_reading p m avg pct = Except.ok (specClassify p m avg pct)) := by
  constructor
  · intro rows w _
    exact calculate_moving_average_eq rows w
  · intro p m avg pct hm
    unfold classify_reading specClassify
    rw [if_neg (ne_of_gt hm)]
    dsimp only
    rw [mul_comm (p / m) 100, mul_comm (avg / m) 100]
    rcases lt_or_le (p / m) (pct / 100) with h | h
    · rw [if_neg (by intro hc; linarith), if_pos h]
    · rw [if_pos (by linarith), if_neg (not_lt.mpr h)]
      rcases le_or_lt (pct / 100) (avg / m) with h2 | h2
      · rw [if_pos (by linarith), if_pos h2]
      · rw [if_neg (by intro hc; linarith), if_neg (not_le.mpr h2)]

/-- C10: in every row produced by the moving-average classification and
in every tuple returned by single-reading classification, the
is-transient flag is true exactly when the alert type is SPIKE. -/
theorem c10_transient_invariant :
    (∀ (rows : List TelemetryRow) (w : ℚ), ∀ out ∈ calculate_moving_average rows w,
        (out.isTransient = true ↔ out.alertType = "SPIKE")) ∧
    (∀ (p m avg pct : ℚ) (res : String × Bool × ℚ × ℚ),
        classify_reading p m avg pct = Except.ok res → (res.2.1 = true ↔ res.1 = "SPIKE")) := by
  constructor
  · intro rows w out hout
    unfold calculate_moving_average at hout
    rw [List.mem_flatten] at hout
    obtain ⟨l, hl, hout⟩ := hout
    rw [List.mem_map] at hl
    obtain ⟨s, _, rfl⟩ := hl
    rw [List.mem_map] at hout
    obtain ⟨r, _, rfl⟩ := hout
    unfold codeResultRow
    dsimp only
    split_ifs with h1 h2
    · decide
    · decide
    · decide
  · intro p m avg pct res h
    unfold classify_reading at h
    by_cases hz : m = 0
    · rw [if_pos hz] at h
      exact Except.noConfusion h
    · rw [if_neg hz] at h
      dsimp only at h
      split_ifs at h with h1 h2
      · injection h with h'
        subst h'
        simp
      · injection h with h'
        subst h'
        simp
      · injection h with h'
        subst h'
        simp

/-! Concrete witnesses. -/

def c1F0 : ReadingFields :=
  ⟨PyTimestamp.str "2024-01-01T00:00:00", "A", "1", "750.0", "1000.0", "SCADA", "SCADA"⟩

def c1F1 : ReadingFields :=
  ⟨PyTimestamp.str "2024-01-01T00:05:00", "A", "1", "900.0", "1000.0", "SCADA", "SCADA"⟩

def c1Mutated : ReadingFields := { c1F0 with pressure_psig := "999.0" }

/-- C1 witness: a concrete two-record engine chain whose first record
has its pressure field mutated; verify flags record 1 with zero records
verified before it. -/
theorem c1_witness :
    verify_hash_chain (mutateAt (insert_chain [c1F0, c1F1] 1) 0 c1Mutated) =
      (false, some ((insert_chain [c1F0, c1F1] 1).getD 0 default).readingID, 0) :=
  c1_tamper_detection [c1F0, c1F1] 1 0 c1Mutated (by decide) (by decide)
    ⟨by decide, Or.inr (Or.inr (Or.inr (Or.inl ⟨"999.0", by decide⟩)))⟩ (by decide)

def c2Fields : ReadingFields :=
  ⟨PyTimestamp.str "2024-01-01T00:00:00", "B", "2", "800.0", "1000.0", "SCADA", "SCADA"⟩

/-- C2 witness: a one-record chain whose stored signature is not the
recomputed digest; verify reports that record with zero verified. -/
theorem c2_witness :
    verify_hash_chain [⟨1, c2Fields, "deadbeef"⟩] = (false, some 1, 0) := by
  have h := c2_verify_postcondition.2.2 [⟨1, c2Fields, "deadbeef"⟩] 0 (by decide)
    (fun j hj => absurd hj (by omega)) (by decide)
  simpa using h

def c4Rows : List TelemetryRow :=
  [⟨some 1, 0, "A", none, 750, 1000⟩, ⟨some 2, 5, "A", none, 900, 1000⟩,
   ⟨some 3, 10, "A", none, 960, 1000⟩]

/-- C4 witness: the spec's concrete scenario (ratios 0.75/0.90/0.96,
five minutes apart, limit 1000) and a spike-shaped single reading. -/
theorem c4_witness :
    calculate_moving_average c4Rows 5 = (iterationOrder c4Rows).map (specResultRow c4Rows 5) ∧
    classify_reading 970 1000 860 95 = Except.ok (specClassify 970 1000 860 95) :=
  ⟨c4_decision_table.1 c4Rows 5 (by with_unfolding_all decide),
   c4_decision_table.2 970 1000 860 95 (by with_unfolding_all decide)⟩

/-- C6 witness: the evaluator rejects limit 0; the classifier fails at
limit 0 but classifies at limit -100. -/
theorem c6_witness :
    evaluate_status 1 0 [] = Except.error ("Invalid MAOP: " ++ toString (0 : ℚ)) ∧
    classify_reading 800 0 800 95 = Except.error "ZeroDivisionError" ∧
    ∃ res, classify_reading 50 (-100) 50 95 = Except.ok res :=
  ⟨c6_zero_negative_limit.1 1 0 [] (by with_unfolding_all decide),
   c6_zero_negative_limit.2.1 800 800 95,
   c6_zero_negative_limit.2.2 50 (-100) 50 95 (by with_unfolding_all decide)⟩

def c8Rules : List ThresholdRule := [⟨19/20, "WARNING"⟩, ⟨99/100, "CRITICAL"⟩]

/-- C8 witness: ratio 0.95 against rules at 0.95 and 0.99. -/
theorem c8_witness :
    evaluate_status 95 100 c8Rules =
      Except.ok (specFirstStatus ((95 : ℚ) / 100) (sortRulesDesc c8Rules)) :=
  (c8_threshold_evaluator 95 100 c8Rules (by with_unfolding_all decide)).1

/-- C9 witness: swapping two rules with distinct thresholds does not
change the evaluator's result. -/
theorem c9_witness :
    evaluate_status 97 100 [⟨19/20, "WARNING"⟩, ⟨99/100, "CRITICAL"⟩] =
      evaluate_status 97 100 [⟨99/100, "CRITICAL"⟩, ⟨19/20, "WARNING"⟩] :=
  c9_rule_order_independence 97 100 [⟨19/20, "WARNING"⟩, ⟨99/100, "CRITICAL"⟩]
    [⟨99/100, "CRITICAL"⟩, ⟨19/20, "WARNING"⟩] (by with_unfolding_all decide)
    (List.Perm.swap (⟨99/100, "CRITICAL"⟩ : ThresholdRule) (⟨19/20, "WARNING"⟩ : ThresholdRule) [])
    (by with_unfolding_all decide)

def c10Rows : List TelemetryRow := [⟨some 1, 0, "A", none, 990, 1000⟩]

def c10Out : ResultRow := ⟨some 1, 0, "A", "", 990, 1000, 99, 990, 99, 1, false, "SUSTAINED"⟩

/-- C10 witness: a concrete classified row (SUSTAINED, not transient)
and a concrete classification tuple (SPIKE, transient). -/
theorem c10_witness :
    (c10Out.isTransient = true ↔ c10Out.alertType = "SPIKE") ∧
    ((("SPIKE", true, (97 : ℚ), (86 : ℚ)).2.1 = true) ↔
      (("SPIKE", true, (97 : ℚ), (86 : ℚ)).1 = "SPIKE")) :=
  ⟨c10_transient_invariant.1 c10Rows 5 c10Out (by with_unfolding_all decide),
   c10_transient_invariant.2 970 1000 860 95 ("SPIKE", true, 97, 86)
     (by with_unfolding_all decide)⟩

end ClearLine
